import Mathlib

/-!
Verification development for the G3D script interpreter (the scripting-language
core of the repository).  The TypeScript source is shallowly embedded: every
function of the source file is translated into a total Lean definition over
`String`, `Rat` and explicit association lists.  JavaScript numbers are
modelled as exact rationals, with `none : Option Rat` standing for the
non-finite values (NaN and the infinities).  The ambient JavaScript global
environment, which `new Function` closes over, is modelled as an explicit
`Env` parameter threaded through evaluation.  A stored user function is an
argument-list/body pair; invoking one re-enters the secure evaluator on the
body against the function table the closure captured, overlaid with the
positional scope, with the globals still behind it, and the engine's finite
call stack is modelled by a depth bound on nested invocations.
-/

namespace G3D

/-! ## String primitives modelling the JavaScript string operations used -/

/-- Is the character pattern a prefix of the character list (case sensitive)? -/
def patHere : List Char → List Char → Bool
  | _, [] => true
  | [], _ :: _ => false
  | c :: cs, d :: ds => (c = d) && patHere cs ds

/-- Does the pattern occur anywhere in the character list?  Models
JavaScript String.prototype.includes. -/
def patIn : List Char → List Char → Bool
  | [], pat => patHere [] pat
  | s@(_ :: cs), pat => patHere s pat || patIn cs pat

/-- Substring containment on strings, models s.includes(sub). -/
def strContains (s sub : String) : Bool := patIn s.data sub.data

/-- Models s.toLowerCase() on the code points that occur. -/
def strLower (s : String) : String := String.mk (s.data.map Char.toLower)

/-- Models s.toUpperCase() on the code points that occur. -/
def strUpper (s : String) : String := String.mk (s.data.map Char.toUpper)

/-- Models s.trim(). -/
def jsTrim (s : String) : String :=
  String.mk ((s.data.dropWhile Char.isWhitespace).reverse.dropWhile Char.isWhitespace).reverse

/-- Models s.startsWith(pat). -/
def startsWithStr (s pat : String) : Bool := patHere s.data pat.data

/-- Worker for single-character split. -/
def splitOnChAux (sep : Char) : List Char → List Char → List String
  | [], cur => [String.mk cur.reverse]
  | c :: cs, cur =>
    if c = sep then String.mk cur.reverse :: splitOnChAux sep cs []
    else splitOnChAux sep cs (c :: cur)

/-- Models s.split(sep) for a single-character separator, keeping empties. -/
def splitOnCh (sep : Char) (s : String) : List String := splitOnChAux sep s.data []

/-- Case-sensitive global literal replacement, fuel-indexed.  Models
str.replace(/pat/g, repl) for a literal pattern. -/
def replAux (pat repl : List Char) : Nat → List Char → List Char
  | 0, s => s
  | _ + 1, [] => []
  | f + 1, s@(c :: cs) =>
    if pat ≠ [] && patHere s pat then repl ++ replAux pat repl f (s.drop pat.length)
    else c :: replAux pat repl f cs

/-- Case-sensitive global replace, models str.replace(/pat/g, repl). -/
def replaceAll (s pat repl : String) : String :=
  String.mk (replAux pat.data repl.data s.data.length s.data)

/-- Case-insensitive prefix test on character lists. -/
def ciHere : List Char → List Char → Bool
  | _, [] => true
  | [], _ :: _ => false
  | c :: cs, d :: ds => (c.toLower = d.toLower) && ciHere cs ds

/-- Global case-insensitive literal replacement, fuel-indexed.  Models
str.replace(/pat/ig, repl) for a literal pattern. -/
def replCIAux (pat repl : List Char) : Nat → List Char → List Char
  | 0, s => s
  | _ + 1, [] => []
  | f + 1, s@(c :: cs) =>
    if pat ≠ [] && ciHere s pat then repl ++ replCIAux pat repl f (s.drop pat.length)
    else c :: replCIAux pat repl f cs

/-- Case-insensitive global replace, models str.replace(/pat/ig, repl). -/
def replaceAllCI (s pat repl : String) : String :=
  String.mk (replCIAux pat.data repl.data s.data.length s.data)

/-- Fuel-indexed worker for whitespace splitting. -/
def splitWsF : Nat → List Char → List Char → List String
  | 0, _, cur => [String.mk cur.reverse]
  | _ + 1, [], cur => [String.mk cur.reverse]
  | f + 1, c :: cs, cur =>
    if c.isWhitespace then
      String.mk cur.reverse :: splitWsF f (cs.dropWhile Char.isWhitespace) []
    else splitWsF f cs (c :: cur)

/-- Models str.split(/\s+/): pieces between maximal whitespace runs. -/
def splitWs (s : String) : List String := splitWsF s.data.length s.data []

/-- Models line.split(' ')[0]: the text before the first space. -/
def firstWord (s : String) : String := String.mk (s.data.takeWhile (fun c => c ≠ ' '))

/-- Models line.split(';')[0]: the text before the first semicolon. -/
def stripComment (s : String) : String := String.mk (s.data.takeWhile (fun c => c ≠ ';'))

/-- Models line.replace(/^(\d+)\s+/, ''): drop a leading numeric label
followed by whitespace, if present. -/
def dropLineLabel (s : String) : String :=
  let ds := s.data.takeWhile Char.isDigit
  if ds = [] then s
  else
    let rest := s.data.drop ds.length
    let ws := rest.takeWhile Char.isWhitespace
    if ws = [] then s else String.mk (rest.drop ws.length)

/-! ## Number parsing and printing, modelling the JavaScript conversions -/

/-- Decimal digit run to a natural number. -/
def digitsToNat (ds : List Char) : Nat := ds.foldl (fun a c => 10 * a + (c.toNat - 48)) 0

/-! ## Kernel-reducible rational arithmetic

The library operations on Rat are irreducible; the interpreter model uses
these smart-constructor forms instead, with bridge lemmas equating them to
the standard operations. -/

/-- Addition on rationals through the normalizing constructor. -/
def qAdd (a b : ℚ) : ℚ := mkRat (a.num * b.den + b.num * a.den) (a.den * b.den)

/-- Multiplication on rationals through the normalizing constructor. -/
def qMul (a b : ℚ) : ℚ := mkRat (a.num * b.num) (a.den * b.den)

/-- Subtraction on rationals through the normalizing constructor. -/
def qSub (a b : ℚ) : ℚ := mkRat (a.num * b.den - b.num * a.den) (a.den * b.den)

/-- Reciprocal on rationals. -/
def qInv (a : ℚ) : ℚ := Rat.divInt a.den a.num

/-- Division on rationals. -/
def qDiv (a b : ℚ) : ℚ := qMul a (qInv b)

/-- Structural natural power on rationals. -/
def qnpow (a : ℚ) : Nat → ℚ
  | 0 => 1
  | n + 1 => qMul (qnpow a n) a

/-- Structural integer power on rationals. -/
def qzpow (a : ℚ) (n : ℤ) : ℚ :=
  if n < 0 then qInv (qnpow a n.natAbs) else qnpow a n.natAbs

theorem qAdd_eq (a b : ℚ) : qAdd a b = a + b := by
  have ha : ((a.den : ℚ)) ≠ 0 := Nat.cast_ne_zero.mpr a.den_nz
  have hb : ((b.den : ℚ)) ≠ 0 := Nat.cast_ne_zero.mpr b.den_nz
  rw [qAdd, Rat.mkRat_eq_div]
  conv_rhs => rw [← Rat.num_div_den a, ← Rat.num_div_den b]
  rw [div_add_div _ _ ha hb]
  push_cast
  ring_nf

theorem qMul_eq (a b : ℚ) : qMul a b = a * b := by
  rw [qMul, Rat.mkRat_eq_div]
  conv_rhs => rw [← Rat.num_div_den a, ← Rat.num_div_den b]
  rw [div_mul_div_comm]
  push_cast
  ring_nf

theorem qSub_eq (a b : ℚ) : qSub a b = a - b := by
  have ha : ((a.den : ℚ)) ≠ 0 := Nat.cast_ne_zero.mpr a.den_nz
  have hb : ((b.den : ℚ)) ≠ 0 := Nat.cast_ne_zero.mpr b.den_nz
  rw [qSub, Rat.mkRat_eq_div]
  conv_rhs => rw [← Rat.num_div_den a, ← Rat.num_div_den b]
  rw [div_sub_div _ _ ha hb]
  push_cast
  ring_nf

theorem qInv_eq (a : ℚ) : qInv a = a⁻¹ := by
  rw [qInv, Rat.divInt_eq_div]
  conv_rhs => rw [← Rat.num_div_den a]
  rw [inv_div]
  push_cast
  ring_nf

theorem qDiv_eq (a b : ℚ) : qDiv a b = a / b := by
  rw [qDiv, qMul_eq, qInv_eq, div_eq_mul_inv]

theorem qnpow_eq (a : ℚ) : ∀ n : Nat, qnpow a n = a ^ n
  | 0 => by rw [qnpow, pow_zero]
  | n + 1 => by rw [qnpow, qMul_eq, qnpow_eq a n, pow_succ]

/-- Models the global parseFloat: parse the longest numeric front of the
string; `none` models NaN. -/
def jparseFloat (s : String) : Option ℚ :=
  let cs := s.data.dropWhile Char.isWhitespace
  let sgn : ℚ := match cs with | '-' :: _ => -1 | _ => 1
  let cs := match cs with | '-' :: r => r | '+' :: r => r | _ => cs
  let ip := cs.takeWhile Char.isDigit
  let cs2 := cs.drop ip.length
  let fp := match cs2 with
    | '.' :: r => r.takeWhile Char.isDigit
    | _ => []
  let cs3 := match cs2 with
    | '.' :: r => r.drop (r.takeWhile Char.isDigit).length
    | _ => cs2
  if ip = [] ∧ fp = [] then none
  else
    let mant : ℚ := qAdd (digitsToNat ip : ℚ) (qDiv (digitsToNat fp : ℚ) (qnpow 10 fp.length))
    let ex : ℤ := match cs3 with
      | e :: r =>
        if e = 'e' ∨ e = 'E' then
          let esgn : ℤ := match r with | '-' :: _ => -1 | _ => 1
          let r2 := match r with | '-' :: t => t | '+' :: t => t | _ => r
          let ed := r2.takeWhile Char.isDigit
          if ed = [] then 0 else esgn * (digitsToNat ed : ℤ)
        else 0
      | [] => 0
    some (qMul (qMul sgn mant) (qzpow 10 ex))

/-- Left-pad with zeros to the given width. -/
def padZeros (s : String) (k : Nat) : String :=
  String.mk (List.replicate (k - s.length) '0') ++ s

/-- Decimal rendering of a nonnegative rational with a terminating decimal
expansion (the only case the interpreter produces on the claims). -/
def qToStringNN (q : ℚ) : String :=
  match (List.range 11).find? (fun k => (qMul q (qnpow 10 k)).den = 1) with
  | some k =>
    let n := (qMul q (qnpow 10 k)).num.toNat
    if k = 0 then toString n
    else toString (n / 10 ^ k) ++ "." ++ padZeros (toString (n % 10 ^ k)) k
  | none => toString q.num ++ "/" ++ toString q.den

/-- Models JavaScript number-to-string for the finite values produced here. -/
def qToString (q : ℚ) : String := if q < 0 then "-" ++ qToStringNN (-q) else qToStringNN q

/-- Number-to-string including the non-finite marker. -/
def jnumToString : Option ℚ → String
  | none => "NaN"
  | some q => qToString q

/-- Worker for toFixed on a nonnegative rational. -/
def toFixedNN (q : ℚ) (d : Nat) : String :=
  let n := (Rat.floor (qAdd (qMul q (qnpow 10 d)) (mkRat 1 2))).toNat
  if d = 0 then toString n
  else toString (n / 10 ^ d) ++ "." ++ padZeros (toString (n % 10 ^ d)) d

/-- Models Number.prototype.toFixed with the given number of digits. -/
def jsToFixed : Option ℚ → Nat → String
  | none, _ => "NaN"
  | some q, d => if q < 0 then "-" ++ toFixedNN (-q) d else toFixedNN q d

/-! ## The string hash used for function identity -/

/-- Wrap an integer to signed 32 bits, modelling the | and & coercions. -/
def wrap32 (x : ℤ) : ℤ := ((x + 2 ^ 31) % 2 ^ 32) - 2 ^ 31

/-- One step of the Java-style string hash: hash = ((hash << 5) - hash) + c,
with the shift and the final mask performed on 32-bit signed integers. -/
def hashStep (h : ℤ) (c : Char) : ℤ := wrap32 (wrap32 (h * 32) - h + (c.toNat : ℤ))

/-- One base-36 digit. -/
def b36digit (n : Nat) : Char :=
  if n < 10 then Char.ofNat (48 + n) else Char.ofNat (87 + n)

/-- Fuel-indexed base-36 digit accumulation. -/
def b36Aux : Nat → Nat → List Char → List Char
  | _, 0, acc => acc
  | n, f + 1, acc => if n = 0 then acc else b36Aux (n / 36) f (b36digit (n % 36) :: acc)

/-- Models Number.prototype.toString(36) on a natural number. -/
def toBase36 (n : Nat) : String :=
  if n = 0 then "0" else String.mk (b36Aux n 64 [])

/-- Models hashString from the source: fold the hash step over the string then
render the absolute value in base 36. -/
def hashString (s : String) : String := toBase36 (s.data.foldl hashStep 0).natAbs

/-! ## Runtime values

JavaScript numbers are `Option Rat`: `none` is the non-finite marker (NaN or
an infinity), `some q` a finite value.  Built-in math functions are opaque
named values; user functions carry their argument list and raw body text,
because the source re-evaluates the stored body text on every call. -/

inductive Value where
  | num (q : Option ℚ)
  | str (s : String)
  | boolV (b : Bool)
  | builtin (name : String)
  | userFn (args : List String) (body : String)
  | undef
deriving DecidableEq

/-- A JavaScript object with string keys, as an insertion-ordered
association list (later upserts keep the original key position). -/
abbrev Env := List (String × Value)

/-- Key lookup. -/
def lookupEnv : Env → String → Option Value
  | [], _ => none
  | (k2, v) :: rest, k => if k2 = k then some v else lookupEnv rest k

/-- Models obj[k] = v on a JavaScript object: overwrite in place if the key
exists, else append, preserving key insertion order. -/
def upsert (env : Env) (k : String) (v : Value) : Env :=
  if env.any (fun p => p.1 = k) then
    env.map (fun p => if p.1 = k then (k, v) else p)
  else env ++ [(k, v)]

/-- Models the object spread: all entries of b written over a. -/
def mergeEnv (a b : Env) : Env := b.foldl (fun acc p => upsert acc p.1 p.2) a

/-- Exact rational value of the double Math.PI. -/
def piDouble : ℚ := mkRat 884279719003555 281474976710656

/-- Exact rational value of the double Math.E. -/
def eDouble : ℚ := mkRat 6121026514868073 2251799813685248

/-- The built-in function table of ParserState, keys in source order. -/
def initialFunctions : Env :=
  [("SIN", .builtin "SIN"), ("COS", .builtin "COS"), ("TAN", .builtin "TAN"),
   ("ASIN", .builtin "ASIN"), ("ACOS", .builtin "ACOS"), ("ATAN", .builtin "ATAN"),
   ("SINH", .builtin "SINH"), ("COSH", .builtin "COSH"), ("TANH", .builtin "TANH"),
   ("ABS", .builtin "ABS"), ("SQRT", .builtin "SQRT"), ("POW", .builtin "POW"),
   ("EXP", .builtin "EXP"), ("LOG", .builtin "LOG"), ("LOG10", .builtin "LOG10"),
   ("CEIL", .builtin "CEIL"), ("FLOOR", .builtin "FLOOR"), ("ROUND", .builtin "ROUND"),
   ("MIN", .builtin "MIN"), ("MAX", .builtin "MAX"),
   ("STR", .builtin "STR"), ("INT", .builtin "INT"),
   ("PI", .num (some piDouble)), ("E", .num (some eDouble))]

/-! ## A tokenizer and recursive-descent reader for the JavaScript expression
fragment that the translated G3D expressions use.  It models what the host
engine does with `new Function(names..., "return " + expr)`: a string the
fragment cannot read raises an error, exactly as the engine raises a
SyntaxError that the source catches. -/

inductive Tok where
  | tnum (q : ℚ)
  | tid (s : String)
  | tstr (s : String)
  | top (s : String)
  | tlp
  | trp
  | tcomma
deriving DecidableEq

/-- Is the character an identifier start? -/
def isIdStart (c : Char) : Bool := c.isAlpha || c = '_' || c = '$'

/-- Is the character an identifier continuation? -/
def isIdChar (c : Char) : Bool := c.isAlpha || c.isDigit || c = '_' || c = '$'

/-- Multi-character operators first: maximal-munch table. -/
def opTable : List String :=
  ["===", "!==", "**", "==", "!=", "<=", ">=", "&&", "||",
   "<", ">", "+", "-", "*", "/", "%", "!", "=", "?", ":"]

/-- Try to read one operator from the front of the character list. -/
def munchOp : List String → List Char → Option (String × List Char)
  | [], _ => none
  | o :: os, s =>
    if patHere s o.data then some (o, s.drop o.data.length) else munchOp os s

/-- Fuel-indexed tokenizer for the expression fragment. -/
def tokenizeF : Nat → List Char → Except String (List Tok)
  | 0, _ => .error "Unexpected end of input"
  | _ + 1, [] => .ok []
  | f + 1, c :: cs =>
    if c.isWhitespace then tokenizeF f cs
    else if c.isDigit then
      let ds := (c :: cs).takeWhile Char.isDigit
      let rest := (c :: cs).drop ds.length
      match rest with
      | '.' :: r =>
        let fs := r.takeWhile Char.isDigit
        let q : ℚ := qAdd (digitsToNat ds : ℚ) (qDiv (digitsToNat fs : ℚ) (qnpow 10 fs.length))
        (tokenizeF f (r.drop fs.length)).map (fun ts => .tnum q :: ts)
      | _ => (tokenizeF f rest).map (fun ts => .tnum (digitsToNat ds : ℚ) :: ts)
    else if isIdStart c then
      let id := (c :: cs).takeWhile isIdChar
      (tokenizeF f ((c :: cs).drop id.length)).map (fun ts => .tid (String.mk id) :: ts)
    else if c = '"' ∨ c = '\'' then
      let body := cs.takeWhile (fun d => d ≠ c)
      match cs.drop body.length with
      | _ :: r => (tokenizeF f r).map (fun ts => .tstr (String.mk body) :: ts)
      | [] => .error "Invalid or unexpected token"
    else if c = '(' then (tokenizeF f cs).map (fun ts => .tlp :: ts)
    else if c = ')' then (tokenizeF f cs).map (fun ts => .trp :: ts)
    else if c = ',' then (tokenizeF f cs).map (fun ts => .tcomma :: ts)
    else
      match munchOp opTable (c :: cs) with
      | some (o, rest) => (tokenizeF f rest).map (fun ts => .top o :: ts)
      | none => .error "Invalid or unexpected token"

/-- Tokenize an expression string. -/
def tokenize (s : String) : Except String (List Tok) := tokenizeF (s.data.length + 1) s.data

/-- Abstract syntax of the evaluated fragment. -/
inductive JSExpr where
  | lit (q : ℚ)
  | strLit (s : String)
  | ident (x : String)
  | bin (op : String) (l r : JSExpr)
  | neg (e : JSExpr)
  | notE (e : JSExpr)
  | plusE (e : JSExpr)
  | call (f : String) (args : List JSExpr)

/-- Binding power of a binary operator; 0 marks a non-operator. -/
def prec : String → Nat
  | "||" => 1
  | "&&" => 2
  | "==" => 3 | "!=" => 3 | "===" => 3 | "!==" => 3
  | "<" => 4 | "<=" => 4 | ">" => 4 | ">=" => 4
  | "+" => 5 | "-" => 5
  | "*" => 6 | "/" => 6 | "%" => 6
  | "**" => 7
  | _ => 0

/-- Exponentiation is right-associative. -/
def rightAssoc (o : String) : Bool := o = "**"

mutual

/-- Parse a full expression at the given fuel. -/
def parseE : Nat → List Tok → Except String (JSExpr × List Tok)
  | 0, _ => .error "Expression too deep"
  | f + 1, ts => do
    let (l, ts) ← parseP f ts
    parseB f 0 l ts

/-- Parse a primary or unary expression. -/
def parseP : Nat → List Tok → Except String (JSExpr × List Tok)
  | 0, _ => .error "Expression too deep"
  | f + 1, ts =>
    match ts with
    | .tnum q :: ts => .ok (.lit q, ts)
    | .tstr s :: ts => .ok (.strLit s, ts)
    | .tid x :: .tlp :: .trp :: ts => .ok (.call x [], ts)
    | .tid x :: .tlp :: ts => do
      let (args, ts) ← parseArgs f ts
      .ok (.call x args, ts)
    | .tid x :: ts => .ok (.ident x, ts)
    | .top "-" :: ts => do
      let (e, ts) ← parseP f ts
      .ok (.neg e, ts)
    | .top "!" :: ts => do
      let (e, ts) ← parseP f ts
      .ok (.notE e, ts)
    | .top "+" :: ts => do
      let (e, ts) ← parseP f ts
      .ok (.plusE e, ts)
    | .tlp :: ts => do
      let (e, ts) ← parseE f ts
      match ts with
      | .trp :: ts => .ok (e, ts)
      | _ => .error "Unexpected token: expected )"
    | _ => .error "Unexpected token"

/-- Parse a comma-separated argument list up to the closing parenthesis. -/
def parseArgs : Nat → List Tok → Except String (List JSExpr × List Tok)
  | 0, _ => .error "Expression too deep"
  | f + 1, ts => do
    let (e, ts) ← parseE f ts
    match ts with
    | .tcomma :: ts => do
      let (es, ts) ← parseArgs f ts
      .ok (e :: es, ts)
    | .trp :: ts => .ok ([e], ts)
    | _ => .error "Unexpected token: expected , or )"

/-- Precedence-climbing loop for binary operators. -/
def parseB : Nat → Nat → JSExpr → List Tok → Except String (JSExpr × List Tok)
  | 0, _, _, _ => .error "Expression too deep"
  | f + 1, minP, lhs, ts =>
    match ts with
    | .top o :: ts2 =>
      if 0 < prec o ∧ minP ≤ prec o then do
        let (r1, ts3) ← parseP f ts2
        let (rhs, ts4) ← parseB f (if rightAssoc o then prec o else prec o + 1) r1 ts3
        parseB f minP (.bin o lhs rhs) ts4
      else .ok (lhs, ts)
    | _ => .ok (lhs, ts)

end

/-- Read a whole expression string of the fragment into syntax; an error
models a SyntaxError raised by the engine. -/
def readExpr (s : String) : Except String JSExpr := do
  let toks ← tokenize s
  let (e, rest) ← parseE (2 * toks.length + 2) toks
  match rest with
  | [] => .ok e
  | _ => .error "Unexpected token after expression"

/-! ## Evaluation of the fragment -/

/-- Numeric coercion, models Number(v) on the values that occur. -/
def toNum : Value → Option ℚ
  | .num v => v
  | .boolV b => some (if b then 1 else 0)
  | .str s =>
    if (s.data.dropWhile Char.isWhitespace) = [] then some 0 else jparseFloat s
  | .builtin _ => none
  | .userFn _ _ => none
  | .undef => none

/-- Lift a total rational operation over the non-finite marker. -/
def q2 (f : ℚ → ℚ → ℚ) : Option ℚ → Option ℚ → Option ℚ
  | some a, some b => some (f a b)
  | _, _ => none

/-- Division; division by zero produces a non-finite value. -/
def qdiv : Option ℚ → Option ℚ → Option ℚ
  | some a, some b => if b = 0 then none else some (qDiv a b)
  | _, _ => none

/-- Truncation toward zero. -/
def qtrunc (q : ℚ) : ℤ := if q < 0 then -Rat.floor (-q) else Rat.floor q

/-- JavaScript remainder (sign of the dividend). -/
def qmod : Option ℚ → Option ℚ → Option ℚ
  | some a, some b => if b = 0 then none else some (qSub a (qMul b (qtrunc (qDiv a b) : ℚ)))
  | _, _ => none

/-- Exponentiation; results that leave the rationals fall outside the
modelled fragment and are mapped to the non-finite marker. -/
def qpow : Option ℚ → Option ℚ → Option ℚ
  | some a, some b =>
    if b.den = 1 then (if a = 0 ∧ b.num < 0 then none else some (qzpow a b.num)) else none
  | _, _ => none

/-- String rendering of a value, models String(v). -/
def jsStr : Value → String
  | .num v => jnumToString v
  | .str s => s
  | .boolV b => if b then "true" else "false"
  | .builtin n => "function " ++ n ++ "() [native code]"
  | .userFn _ b => "(...) => " ++ b
  | .undef => "undefined"

/-- The + operator: string concatenation when either side is a string,
numeric addition otherwise. -/
def vAdd : Value → Value → Value
  | .str a, b => .str (a ++ jsStr b)
  | a, .str b => .str (jsStr a ++ b)
  | a, b => .num (q2 qAdd (toNum a) (toNum b))

/-- Truthiness of a value. -/
def truthy : Value → Bool
  | .num none => false
  | .num (some q) => decide (q ≠ 0)
  | .str s => decide (s ≠ "")
  | .boolV b => b
  | .builtin _ => true
  | .userFn _ _ => true
  | .undef => false

/-- Lexicographic strict order on character lists. -/
def strLtB : List Char → List Char → Bool
  | [], [] => false
  | [], _ :: _ => true
  | _ :: _, [] => false
  | c :: cs, d :: ds => if c = d then strLtB cs ds else decide (c < d)

/-- Relational comparison on rationals, keyed by the operator text. -/
def qRel : String → ℚ → ℚ → Bool
  | "<", x, y => decide (x < y)
  | "<=", x, y => decide (x ≤ y)
  | ">", x, y => decide (y < x)
  | ">=", x, y => decide (y ≤ x)
  | _, _, _ => false

/-- Relational comparison on strings, keyed by the operator text. -/
def strRel : String → String → String → Bool
  | "<", x, y => strLtB x.data y.data
  | "<=", x, y => !strLtB y.data x.data
  | ">", x, y => strLtB y.data x.data
  | ">=", x, y => !strLtB x.data y.data
  | _, _, _ => false

/-- A relational operator: string order when both sides are strings,
numeric order otherwise; comparisons touching NaN are false. -/
def vRel (op : String) (a b : Value) : Value :=
  match a, b with
  | .str x, .str y => .boolV (strRel op x y)
  | _, _ =>
    match toNum a, toNum b with
    | some x, some y => .boolV (qRel op x y)
    | _, _ => .boolV false

/-- Loose equality on the values that occur. -/
def vLooseEq (a b : Value) : Bool :=
  match a, b with
  | .str x, .str y => decide (x = y)
  | .undef, .undef => true
  | .undef, _ => false
  | _, .undef => false
  | .builtin x, .builtin y => decide (x = y)
  | .userFn xa xb, .userFn ya yb => decide (xa = ya) && decide (xb = yb)
  | a, b =>
    match toNum a, toNum b with
    | some x, some y => decide (x = y)
    | _, _ => false

/-- Strict equality. -/
def vStrictEq (a b : Value) : Bool :=
  match a, b with
  | .num x, .num y =>
    match x, y with
    | some p, some q => decide (p = q)
    | _, _ => false
  | .str x, .str y => decide (x = y)
  | .boolV x, .boolV y => x = y
  | .builtin x, .builtin y => decide (x = y)
  | .userFn xa xb, .userFn ya yb => decide (xa = ya) && decide (xb = yb)
  | .undef, .undef => true
  | _, _ => false

/-- Apply a non-short-circuit binary operator to evaluated operands. -/
def applyBin : String → Value → Value → Except String Value
  | "+", a, b => .ok (vAdd a b)
  | "-", a, b => .ok (.num (q2 qSub (toNum a) (toNum b)))
  | "*", a, b => .ok (.num (q2 qMul (toNum a) (toNum b)))
  | "/", a, b => .ok (.num (qdiv (toNum a) (toNum b)))
  | "%", a, b => .ok (.num (qmod (toNum a) (toNum b)))
  | "**", a, b => .ok (.num (qpow (toNum a) (toNum b)))
  | "==", a, b => .ok (.boolV (vLooseEq a b))
  | "!=", a, b => .ok (.boolV (!vLooseEq a b))
  | "===", a, b => .ok (.boolV (vStrictEq a b))
  | "!==", a, b => .ok (.boolV (!vStrictEq a b))
  | "<", a, b => .ok (vRel "<" a b)
  | "<=", a, b => .ok (vRel "<=" a b)
  | ">", a, b => .ok (vRel ">" a b)
  | ">=", a, b => .ok (vRel ">=" a b)
  | o, _, _ => .error ("Unsupported operator " ++ o)

/-- Resolve an identifier: function parameters (the supplied context) first,
then the ambient global environment — exactly the scope a function built by
the engine from source text sees. -/
def resolveName (params globals : Env) (x : String) : Except String Value :=
  match lookupEnv params x with
  | some v => .ok v
  | none =>
    match lookupEnv globals x with
    | some v => .ok v
    | none => .error (x ++ " is not defined")

/-- The shape of a stored user-function closure, as invoked by the
evaluator: it receives the function table the closure captured, the
declared argument names, the stored body text, the evaluated argument
values, and the ambient global environment.  The expression evaluator is
parameterized over it so that the finite call stack of the host engine can
be modelled by structural recursion on a depth bound below. -/
abbrev CallH : Type := Env → List String → String → List Value → Env → Except String Value

mutual

/-- Evaluate fragment syntax against the parameter bindings and the ambient
global environment.  funcs is the function table that every stored
user-function closure captured (by reference to the parser state), and h
invokes such a closure; calling a builtin Math function stays outside the
rational fragment and is reported as a failure. -/
def evalEH (h : CallH) (funcs : Env) : JSExpr → Env → Env → Except String Value
  | .lit q, _, _ => .ok (.num (some q))
  | .strLit s, _, _ => .ok (.str s)
  | .ident x, params, globals => resolveName params globals x
  | .neg e, p, g => do
    let v ← evalEH h funcs e p g
    .ok (.num ((toNum v).map (fun q => -q)))
  | .notE e, p, g => do
    let v ← evalEH h funcs e p g
    .ok (.boolV (!truthy v))
  | .plusE e, p, g => do
    let v ← evalEH h funcs e p g
    .ok (.num (toNum v))
  | .bin o l r, p, g =>
    if o = "&&" then do
      let lv ← evalEH h funcs l p g
      if truthy lv then evalEH h funcs r p g else .ok lv
    else if o = "||" then do
      let lv ← evalEH h funcs l p g
      if truthy lv then .ok lv else evalEH h funcs r p g
    else do
      let lv ← evalEH h funcs l p g
      let rv ← evalEH h funcs r p g
      applyBin o lv rv
  | .call fname args, p, g => do
    let fv ← resolveName p g fname
    let argVals ← evalArgsH h funcs args p g
    match fv with
    | .builtin _ => .error "builtin call outside the modelled fragment"
    | .userFn fargs fbody => h funcs fargs fbody argVals g
    | _ => .error "is not a function"

/-- Evaluate an argument list left to right. -/
def evalArgsH (h : CallH) (funcs : Env) : List JSExpr → Env → Env → Except String (List Value)
  | [], _, _ => .ok []
  | e :: es, p, g => do
    let v ← evalEH h funcs e p g
    let vs ← evalArgsH h funcs es p g
    .ok (v :: vs)

end

/-! ## The secure evaluator -/

/-- Whitelist of allowed characters (SAFE_EXPRESSION_REGEX); the unicode
letter and digit classes are modelled by isAlpha and isDigit. -/
def safeChar (c : Char) : Bool :=
  c.isAlpha || c.isDigit || c.isWhitespace ||
  c = '+' || c = '-' || c = '*' || c = '/' || c = '^' || c = '(' || c = ')' ||
  c = '.' || c = ',' || c = '_' || c = '\'' || c = '"' || c = '<' || c = '>' ||
  c = '=' || c = '&' || c = '|' || c = '!' || c = '?' || c = ':' ||
  c = '[' || c = ']' || c = '²' || c = '³' ||
  (0x2070 ≤ c.toNat && c.toNat ≤ 0x209F)

/-- Models SAFE_EXPRESSION_REGEX.test(expr): nonempty and every character
allowed. -/
def safeTest (expr : String) : Bool :=
  !expr.data.isEmpty && expr.data.all safeChar

/-- The deny-list of the source, in source order. -/
def FORBIDDEN_KEYWORDS : List String :=
  ["window", "document", "alert", "eval", "function",
   "constructor", "prototype", "__proto__", "import", "export",
   "this", "self", ";", "\x7b", "\x7d", "=>", "`"]

/-- Iteration cap of the source. -/
def MAX_LOOP_ITERATIONS : Nat := 10000

/-- Script size cap of the source. -/
def MAX_SCRIPT_SIZE : Nat := 50000

/-- Error display length cap of the source. -/
def MAX_EXPR_LENGTH : Nat := 60

/-- Models jsifyExpression: caret to exponentiation, diamond to inequality,
every equals sign doubled, AND and OR replaced case-insensitively. -/
def jsifyExpression (expr : String) : String :=
  replaceAllCI
    (replaceAllCI
      (replaceAll (replaceAll (replaceAll expr "^" "**") "<>" "!=") "=" "==")
      "AND" "&&")
    "OR" "||"

/-- Expression shown in error messages, truncated past the length cap. -/
def displayExpr (expr : String) : String :=
  if expr.length > MAX_EXPR_LENGTH then String.mk (expr.data.take MAX_EXPR_LENGTH) ++ "..."
  else expr

/-- Word character for the error-message regex. -/
def wordChar (c : Char) : Bool := c.isAlpha || c.isDigit || c = '_'

/-- The literal tail of the not-defined message pattern. -/
def notDefinedPat : List Char := "is not defined".data

/-- Scan for a word, whitespace, then the not-defined tail; returns the word. -/
def notDefAux : List Char → List Char → Option String
  | _, [] => none
  | revPre, c :: cs =>
    let here : Option String :=
      if patHere (c :: cs) notDefinedPat then
        let ws := revPre.takeWhile Char.isWhitespace
        if ws = [] then none
        else
          let w := (revPre.drop ws.length).takeWhile wordChar
          if w = [] then none else some (String.mk w.reverse)
      else none
    match here with
    | some w => some w
    | none => notDefAux (c :: revPre) cs

/-- Models the message normalization m.match(/(\w+)\s+is not defined/). -/
def normalizeNotDefined (m : String) : String :=
  match notDefAux [] m.data with
  | some w => w ++ " is not defined"
  | none => m

/-- The securelyEvaluate pipeline, with the closure invocation and the
captured function table as explicit parameters: character allow-list,
keyword deny-list, operator translation, then evaluation of the translated
text against the supplied context with the ambient globals behind it; a
non-finite numeric result is coerced to 0; failures are wrapped into the
shaped message. -/
def secEvalH (h : CallH) (funcs : Env) (expr : String) (context : Env) (globals : Env) :
    Except String Value :=
  if !safeTest expr then .error "Expression contains invalid characters."
  else
    match FORBIDDEN_KEYWORDS.find? (fun k => strContains (strLower expr) k) with
    | some k => .error ("Expression contains forbidden keyword: " ++ k)
    | none =>
      match readExpr (jsifyExpression expr) with
      | .error m =>
        .error ("Failed to evaluate: \"" ++ displayExpr expr ++ "\" - " ++ normalizeNotDefined m)
      | .ok ast =>
        match evalEH h funcs ast context globals with
        | .ok result =>
          .ok (match result with
            | .num none => .num (some 0)
            | r => r)
        | .error m =>
          .error ("Failed to evaluate: \"" ++ displayExpr expr ++ "\" - " ++ normalizeNotDefined m)

/-- The positional scope a stored closure builds on invocation:
args.reduce writing argName to argValues[index] over the empty object, a
missing positional value being undefined. -/
def fnScope (fargs : List String) (argVals : List Value) : Env :=
  fargs.enum.foldl (fun acc p => upsert acc p.2 (argVals.getD p.1 .undef)) ([] : Env)

/-- Invoking a stored user-function closure at the given remaining stack
depth: the closure re-enters the secure evaluator on the stored body text,
against the captured function table overlaid with the positional scope and
with the ambient globals still behind it; an exhausted depth fails with the
engine's stack-overflow message, which the enclosing evaluation wraps just
as the engine's catch does. -/
def callH : Nat → CallH
  | 0 => fun _ _ _ _ _ => .error "Maximum call stack size exceeded"
  | d + 1 => fun funcs fargs fbody argVals g =>
      secEvalH (callH d) funcs fbody (mergeEnv funcs (fnScope fargs argVals)) g

/-- Call-stack depth bound of the host engine.  The concrete value is
engine-dependent; the model only relies on it being finite. -/
def STACK_DEPTH : Nat := 100

/-- securelyEvaluate as the statement handlers reach it: every
user-function closure stored in the parser state captured the state's
function table by reference, and the handlers evaluate against that table
overlaid with the statement scope.  Values store user functions as
argument-list/body pairs rather than as closures, so the captured table is
passed alongside the context. -/
def securelyEvaluateIn (funcs : Env) (expr : String) (context : Env) (globals : Env) :
    Except String Value :=
  secEvalH (callH STACK_DEPTH) funcs expr context globals

/-- Models securelyEvaluate on a free-standing context: the function table
the stored closures captured is taken to be the supplied context itself.
At the handlers' call sites the captured table is the parser state's
function table and securelyEvaluateIn supplies it exactly. -/
def securelyEvaluate (expr : String) (context : Env) (globals : Env) : Except String Value :=
  secEvalH (callH STACK_DEPTH) context expr context globals

/-! ## Matchers modelling the statement regular expressions

Each source regular expression is hand-translated into a matcher over
character lists: case-insensitive literals, whitespace classes, greedy
character-class runs, and lazy groups realized as an earliest-split scan.
An unanchored search tries every start position left to right. -/

/-- Case-insensitive literal match; returns the rest on success. -/
def matchCI : List Char → List Char → Option (List Char)
  | [], s => some s
  | _ :: _, [] => none
  | p :: ps, c :: cs => if c.toLower = p.toLower then matchCI ps cs else none

/-- One or more whitespace characters. -/
def ws1 : List Char → Option (List Char)
  | c :: cs => if c.isWhitespace then some (cs.dropWhile Char.isWhitespace) else none
  | [] => none

/-- Zero or more whitespace characters. -/
def ws0 (s : List Char) : List Char := s.dropWhile Char.isWhitespace

/-- Greedy nonempty character-class run; returns the run and the rest. -/
def takeCls (p : Char → Bool) (s : List Char) : Option (List Char × List Char) :=
  let m := s.takeWhile p
  if m = [] then none else some (m, s.drop m.length)

/-- A single literal character. -/
def chLit (c : Char) : List Char → Option (List Char)
  | d :: ds => if d = c then some ds else none
  | [] => none

/-- Unanchored search: try the matcher at every position, leftmost first. -/
def searchIn {α : Type} (m : List Char → Option α) : List Char → Option α
  | [] => m []
  | s@(_ :: cs) =>
    match m s with
    | some r => some r
    | none => searchIn m cs

/-- The class \w. -/
def isWordCh (c : Char) : Bool := c.isAlpha || c.isDigit || c = '_'

/-- The class [-\d.eE]. -/
def isNumCh (c : Char) : Bool := c = '-' || c.isDigit || c = '.' || c = 'e' || c = 'E'

/-- The class [-\d.]. -/
def isNum2Ch (c : Char) : Bool := c = '-' || c.isDigit || c = '.'

/-- The class [A-Z0-9] under the i flag. -/
def isAlnumCh (c : Char) : Bool := c.isAlpha || c.isDigit

/-- The class [\d.]. -/
def isSizeCh (c : Char) : Bool := c.isDigit || c = '.'

/-- Matcher for the FOR statement pattern: keyword, variable, start, TO,
end, STEP, step; captures the four texts. -/
def forMatcher (s : List Char) : Option (String × String × String × String) :=
  match matchCI "for".data s with
  | none => none
  | some s =>
  match ws1 s with
  | none => none
  | some s =>
  match takeCls isWordCh s with
  | none => none
  | some (v, s) =>
  match chLit '=' (ws0 s) with
  | none => none
  | some s =>
  match takeCls isNumCh (ws0 s) with
  | none => none
  | some (a, s) =>
  match ws1 s with
  | none => none
  | some s =>
  match matchCI "to".data s with
  | none => none
  | some s =>
  match ws1 s with
  | none => none
  | some s =>
  match takeCls isNumCh s with
  | none => none
  | some (b, s) =>
  match ws1 s with
  | none => none
  | some s =>
  match matchCI "step".data s with
  | none => none
  | some s =>
  match ws1 s with
  | none => none
  | some s =>
  match takeCls isNumCh s with
  | none => none
  | some (c, _) => some (String.mk v, String.mk a, String.mk b, String.mk c)

/-- Matcher for the PLOT3D pattern; captures the FN-name as written. -/
def plot3dMatcher (s : List Char) : Option String :=
  match matchCI "plot3d".data s with
  | none => none
  | some s =>
  match ws1 s with
  | none => none
  | some pre =>
  match matchCI "fn".data pre with
  | none => none
  | some s =>
  match takeCls isAlnumCh s with
  | none => none
  | some (nm, s) =>
  match chLit '(' s with
  | none => none
  | some s =>
  match matchCI "x".data s with
  | none => none
  | some s =>
  match chLit ',' s with
  | none => none
  | some s =>
  match matchCI "y".data s with
  | none => none
  | some s =>
  match chLit ')' s with
  | none => none
  | some _ => some (String.mk (pre.take (2 + nm.length)))

/-- Matcher for the DEF pattern; captures name, argument text (lazily up to
the first closing parenthesis) and body (the rest of the line). -/
def defMatcher (s : List Char) : Option (String × String × String) :=
  match matchCI "def".data s with
  | none => none
  | some s =>
  match ws1 s with
  | none => none
  | some pre =>
  match matchCI "fn".data pre with
  | none => none
  | some s =>
  match takeCls isAlnumCh s with
  | none => none
  | some (nm, s) =>
  match chLit '(' s with
  | none => none
  | some s =>
  let args := s.takeWhile (fun c => c ≠ ')')
  match chLit ')' (s.drop args.length) with
  | none => none
  | some s =>
  match chLit '=' (ws0 s) with
  | none => none
  | some s =>
    some (String.mk (pre.take (2 + nm.length)), String.mk args, String.mk (ws0 s))

/-- Matcher for the continuation pattern with its case-insensitive
backreference; captures name and the addition text. -/
def contMatcher (pre : List Char) : Option (String × String) :=
  match matchCI "fn".data pre with
  | none => none
  | some s =>
  match takeCls isAlnumCh s with
  | none => none
  | some (nm, s) =>
  let name := String.mk (pre.take (2 + nm.length))
  match chLit '=' (ws0 s) with
  | none => none
  | some s =>
  match matchCI name.data (ws0 s) with
  | none => none
  | some s =>
  match chLit '+' (ws0 s) with
  | none => none
  | some s => some (name, String.mk (ws0 s))

/-- Matcher for CIRCLE3D; returns the seven captures in order. -/
def circleMatcher (s : List Char) : Option (List String) :=
  match matchCI "circle3d".data s with
  | none => none
  | some s =>
  match ws1 s with
  | none => none
  | some s =>
  match takeCls isNum2Ch s with
  | none => none
  | some (x, s) =>
  match chLit ',' s with
  | none => none
  | some s =>
  match takeCls isNum2Ch (ws0 s) with
  | none => none
  | some (y, s) =>
  match chLit ',' s with
  | none => none
  | some s =>
  match takeCls isNum2Ch (ws0 s) with
  | none => none
  | some (z, s) =>
  match ws1 s with
  | none => none
  | some s =>
  match matchCI "with".data s with
  | none => none
  | some s =>
  match ws1 s with
  | none => none
  | some s =>
  match matchCI "radius".data s with
  | none => none
  | some s =>
  match ws1 s with
  | none => none
  | some s =>
  match takeCls isNum2Ch s with
  | none => none
  | some (r, s) =>
  match ws1 s with
  | none => none
  | some s =>
  match matchCI "color".data s with
  | none => none
  | some s =>
  match ws1 s with
  | none => none
  | some s =>
  match takeCls Char.isDigit s with
  | none => none
  | some (cr, s) =>
  match chLit ',' s with
  | none => none
  | some s =>
  match takeCls Char.isDigit (ws0 s) with
  | none => none
  | some (cg, s) =>
  match chLit ',' s with
  | none => none
  | some s =>
  match takeCls Char.isDigit (ws0 s) with
  | none => none
  | some (cb, _) =>
    some [String.mk x, String.mk y, String.mk z, String.mk r,
          String.mk cr, String.mk cg, String.mk cb]

/-- After an opening quote: the greedy group runs to the last quote. -/
def textQuote (s : List Char) : Option String :=
  match chLit '"' (ws0 s) with
  | none => none
  | some s3 =>
  match s3.reverse.dropWhile (fun c => c ≠ '"') with
  | [] => none
  | _ :: revContent => some (String.mk revContent.reverse)

/-- Tail of the TEXT/LABEL pattern after the lazy position group, with the
optional TEXT keyword tried first as the engine does. -/
def textTail (s : List Char) : Option String := do
  let s ← ws1 s
  match matchCI "text".data s with
  | some r =>
    match textQuote r with
    | some t => some t
    | none => textQuote s
  | none => textQuote s

/-- Lazy scan for the position group of TEXT/LABEL: earliest split wins. -/
def textAfterAt : List Char → List Char → Option (String × String)
  | acc, s =>
    match textTail s with
    | some t => some (String.mk acc.reverse, t)
    | none =>
      match s with
      | [] => none
      | c :: cs => textAfterAt (c :: acc) cs

/-- Matcher for TEXT/LABEL AT; captures the position text and the quoted
text. -/
def textMatcher (s : List Char) : Option (String × String) := do
  let s ← (match matchCI "text".data s with
    | some r => some r
    | none => matchCI "label".data s)
  let s ← ws1 s
  let s ← matchCI "at".data s
  let s ← ws1 s
  textAfterAt [] s

/-- Tail of the PLOT POINT3D pattern after the lazy position group. -/
def ppTail (s : List Char) : Option (String × String × String × String) :=
  match ws1 s with
  | none => none
  | some s =>
  match matchCI "color".data s with
  | none => none
  | some s =>
  match ws1 s with
  | none => none
  | some s =>
  match takeCls Char.isDigit s with
  | none => none
  | some (r, s) =>
  match chLit ',' s with
  | none => none
  | some s =>
  match takeCls Char.isDigit (ws0 s) with
  | none => none
  | some (g, s) =>
  match chLit ',' s with
  | none => none
  | some s =>
  match takeCls Char.isDigit (ws0 s) with
  | none => none
  | some (b, s) =>
  match ws1 s with
  | none => none
  | some s =>
  match matchCI "size".data s with
  | none => none
  | some s =>
  match ws1 s with
  | none => none
  | some s =>
  match takeCls isSizeCh s with
  | none => none
  | some (sz, _) => some (String.mk r, String.mk g, String.mk b, String.mk sz)

/-- Lazy scan for the position group of PLOT POINT3D. -/
def ppLazy : List Char → List Char → Option (String × String × String × String × String)
  | acc, s =>
    match ppTail s with
    | some (r, g, b, sz) => some (String.mk acc.reverse, r, g, b, sz)
    | none =>
      match s with
      | [] => none
      | c :: cs => ppLazy (c :: acc) cs

/-- Matcher for PLOT POINT3D; captures position text, colors and size. -/
def plotPointMatcher (s : List Char) : Option (String × String × String × String × String) := do
  let s ← matchCI "plot".data s
  let s ← ws1 s
  let s ← matchCI "point3d".data s
  let s ← ws1 s
  ppLazy [] s

/-- Matcher for SET VIEW ANGLE; captures azimuth and elevation texts. -/
def setViewMatcher (s : List Char) : Option (String × String) :=
  match matchCI "set".data s with
  | none => none
  | some s =>
  match ws1 s with
  | none => none
  | some s =>
  match matchCI "view".data s with
  | none => none
  | some s =>
  match ws1 s with
  | none => none
  | some s =>
  match matchCI "angle".data s with
  | none => none
  | some s =>
  match ws1 s with
  | none => none
  | some s =>
  match takeCls isNum2Ch s with
  | none => none
  | some (az, s) =>
  match chLit ',' s with
  | none => none
  | some s =>
  match takeCls isNum2Ch (ws0 s) with
  | none => none
  | some (el, _) => some (String.mk az, String.mk el)

/-- Matcher for SET GRID / SET AXES; captures the ON or OFF text as
written, trying ON first as the alternation does. -/
def onOffMatcher (kw : String) (s : List Char) : Option String := do
  let s ← matchCI "set".data s
  let s ← ws1 s
  let s ← matchCI kw.data s
  let s ← ws1 s
  match matchCI "on".data s with
  | some _ => some (String.mk (s.take 2))
  | none => (matchCI "off".data s).map (fun _ => String.mk (s.take 3))

/-- Matcher for G_VALUE; captures the expression text. -/
def gvalueMatcher (s : List Char) : Option String := do
  let s ← matchCI "g_value".data s
  let s := ws0 s
  let s ← chLit '=' s
  let s := ws0 s
  some (String.mk s)

/-! ## Commands, errors and parser state -/

structure G3DError where
  line : Nat
  message : String
deriving DecidableEq

inductive AnyCommand where
  | plot3D (funcName : String) (args : List String) (body : String)
      (funcHash : String) (usesN : Bool) (line : Nat)
  | circle3D (cx cy cz radius : Option ℚ) (r g b : Option ℚ) (line : Nat)
  | text (x y z : Value) (content : String) (line : Nat)
  | plotPoint3D (x y z : Value) (r g b : Option ℚ) (size : Option ℚ) (line : Nat)
  | setView (azimuth elevation : Option ℚ) (line : Nat)
  | setGrid (visible : Bool) (line : Nat)
  | setAxes (visible : Bool) (line : Nat)
deriving DecidableEq

/-- Is the command a PLOT_POINT3D command? -/
def AnyCommand.isPlotPoint3D : AnyCommand → Bool
  | .plotPoint3D .. => true
  | _ => false

structure ParserState where
  functions : Env
  functionBodies : List (String × (List String × String))
  errors : List G3DError
  commands : List AnyCommand
deriving DecidableEq

/-- Fresh per-parse state, as the ParserState constructor builds it. -/
def initState : ParserState := ⟨initialFunctions, [], [], []⟩

/-- Models state.addError. -/
def addError (st : ParserState) (line : Nat) (msg : String) : ParserState :=
  { st with errors := st.errors ++ [⟨line, msg⟩] }

/-- Models state.commands.push. -/
def addCommand (st : ParserState) (c : AnyCommand) : ParserState :=
  { st with commands := st.commands ++ [c] }

/-- Generic key lookup on an association list. -/
def lookupA {β : Type} : List (String × β) → String → Option β
  | [], _ => none
  | (k2, v) :: rest, k => if k2 = k then some v else lookupA rest k

/-- Generic upsert preserving key insertion order. -/
def upsertA {β : Type} (env : List (String × β)) (k : String) (v : β) : List (String × β) :=
  if env.any (fun p => p.1 = k) then
    env.map (fun p => if p.1 = k then (k, v) else p)
  else env ++ [(k, v)]

/-- Word-boundary test for n, modelling the usesN regular expression. -/
def usesNAux : Option Char → List Char → Bool
  | _, [] => false
  | prev, c :: cs =>
    ((decide (c = 'n') || decide (c = 'N')) &&
     (match prev with | some p => !isWordCh p | none => true) &&
     (match cs with | d :: _ => !isWordCh d | [] => true)) ||
    usesNAux (some c) cs

/-- Does the body mention n as a whole word, in either case? -/
def usesNTest (body : String) : Bool := usesNAux none body.data

/-! ## Statement handlers, one per source function -/

/-- Models parseFunctionDefinition: simple definition form first, then the
continuation form requiring a prior registration, else a syntax error. -/
def parseFunctionDefinition (line : String) (st : ParserState) (lineNumber : Nat) : ParserState :=
  match searchIn defMatcher line.data with
  | some (name, argsStr, body) =>
    let funcName := strUpper name
    let args := (((splitOnCh ',' argsStr).map (fun a => strUpper (jsTrim a))).filter (fun a => a ≠ ""))
    { st with
      functionBodies := upsertA st.functionBodies funcName (args, body),
      functions := upsert st.functions funcName (.userFn args body) }
  | none =>
    match searchIn contMatcher line.data with
    | some (name, addition) =>
      let funcName := strUpper name
      match lookupA st.functionBodies funcName with
      | none =>
        addError st lineNumber ("Function " ++ funcName ++ " not defined before continuation.")
      | some (args, oldBody) =>
        let body := "(" ++ oldBody ++ ") + (" ++ addition ++ ")"
        { st with
          functionBodies := upsertA st.functionBodies funcName (args, body),
          functions := upsert st.functions funcName (.userFn args body) }
    | none => addError st lineNumber "Invalid function definition syntax."

/-- Invoke a registered user function the way its stored closure does: bind
the declared arguments positionally over the live function table and
re-evaluate the stored body text with a fresh call stack. -/
def callUserFunction (st : ParserState) (name : String) (argVals : List Value) (globals : Env) :
    Except String Value :=
  match lookupEnv st.functions name with
  | some (.userFn args body) => callH STACK_DEPTH st.functions args body argVals globals
  | _ => .error "not a user function"

/-- Is the value a function in the typeof sense? -/
def isFunction : Value → Bool
  | .builtin _ => true
  | .userFn _ _ => true
  | _ => false

/-- Models parsePlot3D. -/
def parsePlot3D (line : String) (st : ParserState) (n : Nat) : ParserState :=
  match searchIn plot3dMatcher line.data with
  | some name =>
    let funcName := strUpper name
    match lookupEnv st.functions funcName, lookupA st.functionBodies funcName with
    | some f, some (args, body) =>
      if isFunction f then
        addCommand st (.plot3D funcName args body (hashString body) (usesNTest body) n)
      else addError st n ("Function " ++ funcName ++ " not defined for PLOT3D.")
    | _, _ => addError st n ("Function " ++ funcName ++ " not defined for PLOT3D.")
  | none => addError st n "Invalid PLOT3D syntax."

/-- Models parseCircle3D. -/
def parseCircle3D (line : String) (st : ParserState) (n : Nat) : ParserState :=
  match searchIn circleMatcher line.data with
  | some [x, y, z, r, cr, cg, cb] =>
    addCommand st (.circle3D (jparseFloat x) (jparseFloat y) (jparseFloat z) (jparseFloat r)
      ((jparseFloat cr).map (fun q => qDiv q 255)) ((jparseFloat cg).map (fun q => qDiv q 255))
      ((jparseFloat cb).map (fun q => qDiv q 255)) n)
  | _ => addError st n "Invalid CIRCLE3D syntax."

/-- Models parseText. -/
def parseText (g : Env) (line : String) (st : ParserState) (n : Nat) (scope : Env) : ParserState :=
  match searchIn textMatcher line.data with
  | some (posStr, textExpr) =>
    match (splitOnCh ',' posStr).map jsTrim with
    | [p1, p2, p3] =>
      let ctx := mergeEnv st.functions scope
      match securelyEvaluateIn st.functions p1 ctx g with
      | .error m => addError st n m
      | .ok x =>
        match securelyEvaluateIn st.functions p2 ctx g with
        | .error m => addError st n m
        | .ok y =>
          match securelyEvaluateIn st.functions p3 ctx g with
          | .error m => addError st n m
          | .ok z =>
            match securelyEvaluateIn st.functions ("\"" ++ textExpr ++ "\"") ctx g with
            | .error m => addError st n m
            | .ok t => addCommand st (.text x y z (jsStr t) n)
    | _ => addError st n "TEXT/LABEL AT requires 3 coordinates."
  | none => addError st n "Invalid TEXT/LABEL AT syntax."

/-- Models parsePlotPoint3D. -/
def parsePlotPoint3D (g : Env) (line : String) (st : ParserState) (n : Nat) (scope : Env) :
    ParserState :=
  match searchIn plotPointMatcher line.data with
  | some (posStr, r, gr, b, sz) =>
    match (splitOnCh ',' posStr).map jsTrim with
    | [p1, p2, p3] =>
      let ctx := mergeEnv st.functions scope
      match securelyEvaluateIn st.functions p1 ctx g with
      | .error m => addError st n m
      | .ok x =>
        match securelyEvaluateIn st.functions p2 ctx g with
        | .error m => addError st n m
        | .ok y =>
          match securelyEvaluateIn st.functions p3 ctx g with
          | .error m => addError st n m
          | .ok z =>
            addCommand st (.plotPoint3D x y z
              ((jparseFloat r).map (fun q => qDiv q 255))
              ((jparseFloat gr).map (fun q => qDiv q 255))
              ((jparseFloat b).map (fun q => qDiv q 255)) (jparseFloat sz) n)
    | _ => addError st n "PLOT POINT3D requires 3 coordinates."
  | none => addError st n "Invalid PLOT POINT3D syntax."

/-- Models parseSetView. -/
def parseSetView (line : String) (st : ParserState) (n : Nat) : ParserState :=
  match searchIn setViewMatcher line.data with
  | some (az, el) => addCommand st (.setView (jparseFloat az) (jparseFloat el) n)
  | none => addError st n "Invalid SET VIEW syntax."

/-- Models parseSetGrid. -/
def parseSetGrid (line : String) (st : ParserState) (n : Nat) : ParserState :=
  match searchIn (onOffMatcher "grid") line.data with
  | some w => addCommand st (.setGrid (decide (strUpper w = "ON")) n)
  | none => addError st n "Invalid SET GRID syntax."

/-- Models parseSetAxes. -/
def parseSetAxes (line : String) (st : ParserState) (n : Nat) : ParserState :=
  match searchIn (onOffMatcher "axes") line.data with
  | some w => addCommand st (.setAxes (decide (strUpper w = "ON")) n)
  | none => addError st n "Invalid SET AXES syntax."

/-- Models processLine: dispatch on the upper-cased first keyword; a line
matching no branch is left untouched. -/
def processLine (g : Env) (line : String) (lineNumber : Nat) (st : ParserState) (scope : Env) :
    ParserState :=
  let command := strUpper (firstWord line)
  let commandParts := (splitWs line).map strUpper
  if command = "DEF" ∨ (startsWithStr command "FN" ∧ strContains line "=") then
    parseFunctionDefinition line st lineNumber
  else if command = "PLOT3D" then parsePlot3D line st lineNumber
  else if command = "CIRCLE3D" then parseCircle3D line st lineNumber
  else if command = "TEXT" ∨ command = "LABEL" then parseText g line st lineNumber scope
  else if command = "PLOT" then
    if commandParts.get? 1 = some "POINT3D" then parsePlotPoint3D g line st lineNumber scope
    else st
  else if command = "G_VALUE" then
    match searchIn gvalueMatcher line.data with
    | some ex =>
      match securelyEvaluateIn st.functions ex (mergeEnv st.functions scope) g with
      | .ok _ => st
      | .error m => addError st lineNumber m
    | none => st
  else st

/-! ## The loop executor and the line walk -/

structure ForLoop where
  varName : String
  start : Option ℚ
  endV : Option ℚ
  step : Option ℚ
deriving DecidableEq

/-- Models parseFor without its error push: match and build the loop header,
the variable upper-cased and the bounds through parseFloat. -/
def parseForMatch (line : String) : Option ForLoop :=
  (searchIn forMatcher line.data).map (fun p =>
    ⟨strUpper p.1, jparseFloat p.2.1, jparseFloat p.2.2.1, jparseFloat p.2.2.2⟩)

/-- The loop guard val <= end; comparisons with NaN are false. -/
def qle : Option ℚ → Option ℚ → Bool
  | some a, some b => decide (a ≤ b)
  | _, _ => false

/-- val += step with NaN propagation. -/
def qplus : Option ℚ → Option ℚ → Option ℚ
  | some a, some b => some (qAdd a b)
  | _, _ => none

/-- Cleaned line with its original number. -/
abbrev Line := String × Nat

/-- The overflow error text of the source. -/
def overflowMsg (loop : ForLoop) (val : Option ℚ) : String :=
  "FOR loop exceeded " ++ toString MAX_LOOP_ITERATIONS ++ " iterations. " ++
  "Current: " ++ loop.varName ++ "=" ++ jsToFixed val 4 ++ ", " ++
  "Range: " ++ jnumToString loop.start ++ " to " ++ jnumToString loop.endV ++
  ", Step: " ++ jnumToString loop.step

/-- One pass over the collected body lines, skipping empties. -/
def runBody (g : Env) (bodyLines : List Line) (scope : Env) (st : ParserState) : ParserState :=
  bodyLines.foldl (fun s p => if p.1 ≠ "" then processLine g p.1 p.2 s scope else s) st

/-- The FOR loop of the source: while val <= end, either the iteration
budget is exhausted — record the overflow error and stop — or run the body
under the loop scope and advance.  The fuel is the remaining permitted
body executions, initially the iteration cap. -/
def runLoop (g : Env) (bodyLines : List Line) (loop : ForLoop) (forLine : Nat) :
    Nat → Option ℚ → ParserState → ParserState
  | fuel, val, st =>
    if qle val loop.endV then
      match fuel with
      | 0 => addError st forLine (overflowMsg loop val)
      | f + 1 =>
        runLoop g bodyLines loop forLine f (qplus val loop.step)
          (runBody g bodyLines [(loop.varName, Value.num val)] st)
    else st

/-- Line normalization of the main walk: drop the comment tail, trim, drop
a leading numeric label. -/
def normalizeLine (s : String) : String := dropLineLabel (jsTrim (stripComment s))

/-- Pair each raw line with its 1-based original number. -/
def numberLines (ls : List String) : List Line :=
  ls.enum.map (fun p => (p.2, p.1 + 1))

/-- Forward scan for the matching NEXT line: normalize each subsequent
line, stop at one equal to NEXT var (upper-cased), collecting the cleaned
body lines on the way. -/
def findNextF : Nat → List Line → Nat → String → List Line → Option (Nat × List Line)
  | 0, _, _, _, _ => none
  | f + 1, lines, j, v, acc =>
    match lines.get? j with
    | none => none
    | some (content, num) =>
      let inner := normalizeLine content
      if strUpper inner = "NEXT " ++ v then some (j, acc)
      else findNextF f lines (j + 1) v (acc ++ [(inner, num)])

/-- The main line walk of parseG3D: fuel-indexed loop over the line index,
with the FOR block handling (scan, loop run, index jump) inlined as in the
source; all other lines go to SET dispatch or processLine. -/
def runFrom (g : Env) (lines : List Line) : Nat → Nat → ParserState → ParserState
  | 0, _, st => st
  | f + 1, i, st =>
    match lines.get? i with
    | none => st
    | some (content, num) =>
      let line := normalizeLine content
      if line = "" ∨ startsWithStr (strUpper line) "REM" then runFrom g lines f (i + 1) st
      else
        let command := strUpper (firstWord line)
        if command = "FOR" then
          match parseForMatch line with
          | none => runFrom g lines f (i + 1) (addError st num "Invalid FOR loop syntax.")
          | some loop =>
            match findNextF (lines.length + 1) lines (i + 1) loop.varName [] with
            | some (nextIndex, bodyLines) =>
              runFrom g lines f (nextIndex + 1)
                (runLoop g bodyLines loop num MAX_LOOP_ITERATIONS loop.start st)
            | none => runFrom g lines f (i + 1) (addError st num ("Missing NEXT " ++ loop.varName))
        else if command = "SET" then
          let sub := ((splitWs line).get? 1).map strUpper
          if sub = some "VIEW" then runFrom g lines f (i + 1) (parseSetView line st num)
          else if sub = some "GRID" then runFrom g lines f (i + 1) (parseSetGrid line st num)
          else if sub = some "AXES" then runFrom g lines f (i + 1) (parseSetAxes line st num)
          else runFrom g lines f (i + 1) st
        else runFrom g lines f (i + 1) (processLine g line num st [])

/-! ## The public entry point -/

structure Scene where
  commands : List AnyCommand
  errors : Option (List G3DError)
deriving DecidableEq

/-- The size-limit error text of the source. -/
def sizeMsg : String :=
  "Script too large. Maximum size is " ++ toString MAX_SCRIPT_SIZE ++ " characters."

/-- The state after walking all lines of a script. -/
def runScript (g : Env) (script : String) : ParserState :=
  let lines := numberLines (splitOnCh '\n' script)
  runFrom g lines lines.length 0 initState

/-- Models parseG3D: the size gate, then the line walk, then result
assembly with the errors field present only when nonempty. -/
def parseG3D (g : Env) (script : String) : Scene :=
  if script.length > MAX_SCRIPT_SIZE then ⟨[], some [⟨1, sizeMsg⟩]⟩
  else
    let st := runScript g script
    ⟨st.commands, if st.errors = [] then none else some st.errors⟩

/-! ## Derived notions used by the statements -/

instance : DecidableEq (Except String Value) := fun a b =>
  match a, b with
  | .ok x, .ok y =>
    if h : x = y then .isTrue (by rw [h]) else .isFalse (fun hh => by cases hh; exact h rfl)
  | .error x, .error y =>
    if h : x = y then .isTrue (by rw [h]) else .isFalse (fun hh => by cases hh; exact h rfl)
  | .ok _, .error _ => .isFalse (fun hh => by cases hh)
  | .error _, .ok _ => .isFalse (fun hh => by cases hh)

/-- Is the result a failure? -/
def isErr : Except String Value → Bool
  | .error _ => true
  | .ok _ => false

mutual

/-- All identifiers an expression resolves, call targets included. -/
def identsOf : JSExpr → List String
  | .lit _ => []
  | .strLit _ => []
  | .ident x => [x]
  | .bin _ l r => identsOf l ++ identsOf r
  | .neg e => identsOf e
  | .notE e => identsOf e
  | .plusE e => identsOf e
  | .call f args => f :: identsOfList args

/-- Identifiers of a list of expressions. -/
def identsOfList : List JSExpr → List String
  | [] => []
  | e :: es => identsOf e ++ identsOfList es

end

/-- C2 counterexample: a normalized, non-blank, non-comment line whose
first keyword is unrecognized produces no SyntaxError record at all — the
claimed single error record is absent from the result. -/
theorem c2_counterexample : parseG3D [] "FOO 1" = ⟨[], none⟩ := by decide

/-- C2 amended: a line whose first keyword matches no recognized statement
form is silently ignored — the dispatcher returns the state unchanged, with
no error record and no command — and parsing continues with the next line. -/
theorem c2_unrecognized_silent (g : Env) (line : String) (n : Nat) (st : ParserState)
    (scope : Env)
    (h1 : strUpper (firstWord line) ∉
      (["DEF", "PLOT3D", "CIRCLE3D", "TEXT", "LABEL", "G_VALUE"] : List String))
    (h2 : ¬(startsWithStr (strUpper (firstWord line)) "FN" = true ∧
            strContains line "=" = true))
    (h3 : strUpper (firstWord line) = "PLOT" →
          ((splitWs line).map strUpper).get? 1 ≠ some "POINT3D") :
    processLine g line n st scope = st := by
  have hd : strUpper (firstWord line) ≠ "DEF" := fun hh => h1 (by rw [hh]; decide)
  have hp3 : strUpper (firstWord line) ≠ "PLOT3D" := fun hh => h1 (by rw [hh]; decide)
  have hc : strUpper (firstWord line) ≠ "CIRCLE3D" := fun hh => h1 (by rw [hh]; decide)
  have ht : strUpper (firstWord line) ≠ "TEXT" := fun hh => h1 (by rw [hh]; decide)
  have hl : strUpper (firstWord line) ≠ "LABEL" := fun hh => h1 (by rw [hh]; decide)
  have hg : strUpper (firstWord line) ≠ "G_VALUE" := fun hh => h1 (by rw [hh]; decide)
  unfold processLine
  rw [if_neg (fun hh => hh.elim hd h2)]
  rw [if_neg hp3, if_neg hc, if_neg (fun hh => hh.elim ht hl)]
  by_cases hp : strUpper (firstWord line) = "PLOT"
  · rw [if_pos hp, if_neg (h3 hp)]
  · rw [if_neg hp, if_neg hg]

/-- C2 amended, witness: the dispatcher leaves the fresh state untouched on
an unrecognized line. -/
theorem c2_unrecognized_silent_witness :
    processLine [] "FOO 1" 1 initState [] = initState :=
  c2_unrecognized_silent [] "FOO 1" 1 initState [] (by decide) (by decide) (by decide)

/-- C3 counterexample: a FOR with no matching NEXT records the single
MissingTerminator error, but the following lines are not skipped — the SET
GRID ON line that would have formed the loop body still produces its
command, where the claim demands zero commands from that region. -/
theorem c3_counterexample :
    parseG3D [] "FOR T=0 TO 1 STEP 1\nSET GRID ON" =
      ⟨[.setGrid true 2], some [⟨1, "Missing NEXT T"⟩]⟩ := by decide

/-- C10: the errors field of the returned result is never a present-but-
empty list: it is absent exactly when no error was recorded. -/
theorem c10_no_empty_error_list (g : Env) (script : String) :
    (parseG3D g script).errors ≠ some [] := by
  unfold parseG3D
  by_cases h : script.length > MAX_SCRIPT_SIZE
  · rw [if_pos h]
    intro hh
    simp at hh
  · rw [if_neg h]
    by_cases he : (runScript g script).errors = []
    · simp only [he, if_pos rfl]
      intro hh
      simp at hh
    · simp only [if_neg he]
      intro hh
      exact he (Option.some.inj hh)

/-- C10 witness: a script with one malformed statement returns a nonempty
present error list, never some empty list. -/
theorem c10_no_empty_error_list_witness :
    (parseG3D [] "PLOT3D").errors ≠ some [] :=
  c10_no_empty_error_list [] "PLOT3D"

/-- C4 counterexample: the equals sign inside a composite comparison is
also doubled — the translation turns 1<=2 into 1<==2, although the claim
says only a bare equals sign is translated, and the resulting text no
longer evaluates. -/
theorem c4_counterexample :
    jsifyExpression "1<=2" = "1<==2" ∧
    isErr (securelyEvaluate "1<=2" [] []) = true := by
  constructor <;> decide

/-- C4 amended: the translation maps caret to exponentiation, diamond to
strict inequality, AND and OR case-insensitively to logical and and or, and
doubles every equals sign — including those inside <= and >=, which become
malformed; expressions over caret, diamond, bare equals and the logical
words evaluate to the expected results. -/
theorem c4_operator_translation :
    jsifyExpression "2^3" = "2**3" ∧
    jsifyExpression "1<>2" = "1!==2" ∧
    jsifyExpression "a=b" = "a==b" ∧
    jsifyExpression "x AND y" = "x && y" ∧
    jsifyExpression "x or y" = "x || y" ∧
    securelyEvaluate "2^3" [] [] = .ok (.num (some 8)) ∧
    securelyEvaluate "1<>2" [] [] = .ok (.boolV true) ∧
    securelyEvaluate "3=3" [] [] = .ok (.boolV true) ∧
    securelyEvaluate "1=2 OR 2=2" [] [] = .ok (.boolV true) ∧
    securelyEvaluate "1=1 and 1=2" [] [] = .ok (.boolV false) := by
  refine ⟨by decide, by decide, by decide, by decide, by decide,
    by decide, by decide, by decide, by decide, by decide⟩

/-- C7: an expression whose lowercased text contains any deny-list token is
rejected: either the character allow-list already fails, or the keyword
scan finds a token; evaluation is never reached. -/
theorem c7_deny_list (expr : String) (ctx g : Env) (k : String)
    (hk : k ∈ FORBIDDEN_KEYWORDS) (hsub : strContains (strLower expr) k = true) :
    isErr (securelyEvaluate expr ctx g) = true := by
  unfold securelyEvaluate secEvalH
  cases hs : safeTest expr with
  | false => rfl
  | true =>
    cases hf : FORBIDDEN_KEYWORDS.find? (fun k2 => strContains (strLower expr) k2) with
    | some k2 => rfl
    | none =>
      exfalso
      have hsome : (FORBIDDEN_KEYWORDS.find? (fun k2 => strContains (strLower expr) k2)).isSome := by
        rw [List.find?_isSome]
        exact ⟨k, hk, hsub⟩
      rw [hf] at hsome
      simp at hsome

/-- C7 witness: an expression containing window in mixed case is rejected. -/
theorem c7_deny_list_witness :
    "window" ∈ FORBIDDEN_KEYWORDS ∧
    strContains (strLower "WiNdOw + 1") "window" = true ∧
    isErr (securelyEvaluate "WiNdOw + 1" [] []) = true :=
  ⟨by decide, by decide, c7_deny_list "WiNdOw + 1" [] [] "window" (by decide) (by decide)⟩

/-- C9: for a script at or under the size cap the parse is total by
construction — the size abort does not fire, the walk state is assembled
into a Scene with the ordered command list and an errors field that is
either absent or a nonempty list. -/
theorem c9_total (g : Env) (script : String) (h : script.length ≤ MAX_SCRIPT_SIZE) :
    ∃ st : ParserState,
      parseG3D g script = ⟨st.commands, if st.errors = [] then none else some st.errors⟩ ∧
      ((parseG3D g script).errors = none ∨
        ∃ l, (parseG3D g script).errors = some l ∧ l ≠ []) := by
  refine ⟨runScript g script, ?_, ?_⟩
  · unfold parseG3D
    rw [if_neg (by omega)]
  · unfold parseG3D
    rw [if_neg (by omega)]
    by_cases he : (runScript g script).errors = []
    · exact Or.inl (by simp [he])
    · exact Or.inr ⟨(runScript g script).errors, by simp [he], he⟩

/-- C9 witness: the empty script is under the cap and yields a ParseResult
of the assembled shape. -/
theorem c9_total_witness :
    ∃ st : ParserState,
      parseG3D [] "" = ⟨st.commands, if st.errors = [] then none else some st.errors⟩ ∧
      ((parseG3D [] "").errors = none ∨
        ∃ l, (parseG3D [] "").errors = some l ∧ l ≠ []) :=
  c9_total [] "" (by decide)

/-- C3 amended: when a FOR line parses but the forward scan finds no
matching NEXT line, the walk records exactly one MissingTerminator error
for the FOR line, runs zero loop iterations, and then continues with the
very next line as ordinary top-level input — the would-be body lines are
not skipped. -/
theorem c3_missing_next (g : Env) (lines : List Line) (f i : Nat) (st : ParserState)
    (content : String) (n : Nat) (loop : ForLoop)
    (hline : lines.get? i = some (content, n))
    (hne : normalizeLine content ≠ "")
    (hrem : startsWithStr (strUpper (normalizeLine content)) "REM" = false)
    (hcmd : strUpper (firstWord (normalizeLine content)) = "FOR")
    (hfor : parseForMatch (normalizeLine content) = some loop)
    (hnext : findNextF (lines.length + 1) lines (i + 1) loop.varName [] = none) :
    runFrom g lines (f + 1) i st =
      runFrom g lines f (i + 1) (addError st n ("Missing NEXT " ++ loop.varName)) := by
  conv_lhs => rw [runFrom]
  simp only [hline]
  rw [if_neg (fun hh => hh.elim hne (fun hb => by rw [hrem] at hb; exact Bool.false_ne_true hb))]
  rw [hcmd, if_pos rfl]
  simp only [hfor, hnext]

/-- C3 amended, witness: the concrete two-line script instantiates the
missing-NEXT step. -/
theorem c3_missing_next_witness :
    runFrom [] [("FOR T=0 TO 1 STEP 1", 1), ("SET GRID ON", 2)] 2 0 initState =
      runFrom [] [("FOR T=0 TO 1 STEP 1", 1), ("SET GRID ON", 2)] 1 1
        (addError initState 1 ("Missing NEXT " ++ "T")) :=
  c3_missing_next [] [("FOR T=0 TO 1 STEP 1", 1), ("SET GRID ON", 2)] 1 0 initState
    "FOR T=0 TO 1 STEP 1" 1 ⟨"T", some 0, some 1, some 1⟩
    (by decide) (by decide) (by decide) (by decide) (by decide) (by decide)

/-- C8: a continuation statement requires a prior registration — without
one it records the UndefinedContinuation error and changes nothing else —
and on success the stored body becomes the old body plus the extra text
under the original argument list; the concrete DEF and continuation pair
registers a function computing (X+Y)+1 at every pair of rationals. -/
theorem c8_continuation :
    (∀ (st : ParserState) (n : Nat), lookupA st.functionBodies "FNZ" = none →
      parseFunctionDefinition "FNZ = FNZ + 1" st n =
        addError st n "Function FNZ not defined before continuation.") ∧
    lookupA (runScript [] "DEF FNZ(X,Y) = X+Y\nFNZ = FNZ + 1").functionBodies "FNZ"
      = some (["X", "Y"], "(X+Y) + (1)") ∧
    (∀ (x y : ℚ) (g : Env),
      callUserFunction (runScript [] "DEF FNZ(X,Y) = X+Y\nFNZ = FNZ + 1") "FNZ"
        [Value.num (some x), Value.num (some y)] g = .ok (.num (some (x + y + 1)))) := by
  refine ⟨?_, by decide, ?_⟩
  · intro st n h
    unfold parseFunctionDefinition
    simp only [show searchIn defMatcher "FNZ = FNZ + 1".data = none from by decide,
      show searchIn contMatcher "FNZ = FNZ + 1".data = some ("FNZ", "1") from by decide,
      show strUpper "FNZ" = "FNZ" from rfl, h]
    rfl
  · intro x y g
    have hstep : callUserFunction (runScript [] "DEF FNZ(X,Y) = X+Y\nFNZ = FNZ + 1") "FNZ"
        [Value.num (some x), Value.num (some y)] g = .ok (.num (some (qAdd (qAdd x y) 1))) := rfl
    rw [hstep, qAdd_eq, qAdd_eq]

/-- C8 witness: the no-prior-registration case at the fresh state. -/
theorem c8_continuation_witness :
    parseFunctionDefinition "FNZ = FNZ + 1" initState 1 =
      addError initState 1 "Function FNZ not defined before continuation." :=
  c8_continuation.1 initState 1 (by decide)

/-! ## The size-limit error occurs only through the size gate

Every error the line walk can record has a message different from the
size-limit message; the facts below trace each message-producing site. -/

/-- All recorded messages differ from the size-limit message. -/
def errsOk (st : ParserState) : Prop := ∀ e ∈ st.errors, e.message ≠ sizeMsg

theorem ne_sizeMsg_of_head (s : String) (c : Char) (hc : s.data.head? = some c)
    (h : c ≠ 'S') : s ≠ sizeMsg := by
  intro heq
  apply h
  have : sizeMsg.data.head? = some c := by rw [← heq]; exact hc
  have hS : sizeMsg.data.head? = some 'S' := by decide
  rw [hS] at this
  exact (Option.some.inj this).symm

theorem errsOk_addError {st : ParserState} {n : Nat} {msg : String}
    (h : errsOk st) (hm : msg ≠ sizeMsg) : errsOk (addError st n msg) := by
  intro e he
  simp only [addError, List.mem_append, List.mem_singleton] at he
  rcases he with he | he
  · exact h e he
  · rw [he]
    exact hm

theorem errsOk_addCommand {st : ParserState} {c : AnyCommand} (h : errsOk st) :
    errsOk (addCommand st c) := fun e he => h e he

theorem errsOk_init : errsOk initState := by
  intro e he
  cases he

/-- Every failure message of the secure evaluator starts with a letter
other than S, so it never equals the size-limit message: the three failure
shapes of the pipeline wrap every inner message, the stack-overflow one
included. -/
theorem securelyEvaluateIn_error_ne (funcs : Env) (expr : String) (ctx g : Env) (m : String)
    (h : securelyEvaluateIn funcs expr ctx g = .error m) : m ≠ sizeMsg := by
  unfold securelyEvaluateIn secEvalH at h
  cases hs : safeTest expr with
  | false =>
    rw [hs] at h
    simp only [Bool.not_false, if_pos] at h
    cases h
    decide
  | true =>
    rw [hs] at h
    simp only [Bool.not_true, Bool.false_eq_true, if_false] at h
    cases hf : FORBIDDEN_KEYWORDS.find? (fun k => strContains (strLower expr) k) with
    | some k =>
      rw [hf] at h
      cases h
      exact ne_sizeMsg_of_head _ 'E' rfl (by decide)
    | none =>
      rw [hf] at h
      cases hr : readExpr (jsifyExpression expr) with
      | error m0 =>
        simp only [hr] at h
        cases h
        exact ne_sizeMsg_of_head _ 'F' rfl (by decide)
      | ok ast =>
        simp only [hr] at h
        cases he : evalEH (callH STACK_DEPTH) funcs ast ctx g with
        | ok v =>
          simp only [he] at h
          exact Except.noConfusion h
        | error m0 =>
          simp only [he] at h
          cases h
          exact ne_sizeMsg_of_head _ 'F' rfl (by decide)

theorem errsOk_parseFunctionDefinition (line : String) (st : ParserState) (n : Nat)
    (h : errsOk st) : errsOk (parseFunctionDefinition line st n) := by
  unfold parseFunctionDefinition
  dsimp only
  split
  · exact fun e he => h e he
  · split
    · split
      · exact errsOk_addError h (ne_sizeMsg_of_head _ 'F' rfl (by decide))
      · exact fun e he => h e he
    · exact errsOk_addError h (by decide)

theorem errsOk_parsePlot3D (line : String) (st : ParserState) (n : Nat)
    (h : errsOk st) : errsOk (parsePlot3D line st n) := by
  unfold parsePlot3D
  dsimp only
  split
  · split
    · split
      · exact errsOk_addCommand h
      · exact errsOk_addError h (ne_sizeMsg_of_head _ 'F' rfl (by decide))
    · exact errsOk_addError h (ne_sizeMsg_of_head _ 'F' rfl (by decide))
  · exact errsOk_addError h (by decide)

theorem errsOk_parseCircle3D (line : String) (st : ParserState) (n : Nat)
    (h : errsOk st) : errsOk (parseCircle3D line st n) := by
  unfold parseCircle3D
  split
  · exact errsOk_addCommand h
  · exact errsOk_addError h (by decide)

theorem errsOk_parseText (g : Env) (line : String) (st : ParserState) (n : Nat) (scope : Env)
    (h : errsOk st) : errsOk (parseText g line st n scope) := by
  unfold parseText
  dsimp only
  split
  · split
    · split
      · next m hm => exact errsOk_addError h (securelyEvaluateIn_error_ne _ _ _ _ _ hm)
      · split
        · next m hm => exact errsOk_addError h (securelyEvaluateIn_error_ne _ _ _ _ _ hm)
        · split
          · next m hm => exact errsOk_addError h (securelyEvaluateIn_error_ne _ _ _ _ _ hm)
          · split
            · next m hm => exact errsOk_addError h (securelyEvaluateIn_error_ne _ _ _ _ _ hm)
            · exact errsOk_addCommand h
    · exact errsOk_addError h (by decide)
  · exact errsOk_addError h (by decide)

theorem errsOk_parsePlotPoint3D (g : Env) (line : String) (st : ParserState) (n : Nat)
    (scope : Env) (h : errsOk st) : errsOk (parsePlotPoint3D g line st n scope) := by
  unfold parsePlotPoint3D
  dsimp only
  split
  · split
    · split
      · next m hm => exact errsOk_addError h (securelyEvaluateIn_error_ne _ _ _ _ _ hm)
      · split
        · next m hm => exact errsOk_addError h (securelyEvaluateIn_error_ne _ _ _ _ _ hm)
        · split
          · next m hm => exact errsOk_addError h (securelyEvaluateIn_error_ne _ _ _ _ _ hm)
          · exact errsOk_addCommand h
    · exact errsOk_addError h (by decide)
  · exact errsOk_addError h (by decide)

theorem errsOk_parseSetView (line : String) (st : ParserState) (n : Nat)
    (h : errsOk st) : errsOk (parseSetView line st n) := by
  unfold parseSetView
  split
  · exact errsOk_addCommand h
  · exact errsOk_addError h (by decide)

theorem errsOk_parseSetGrid (line : String) (st : ParserState) (n : Nat)
    (h : errsOk st) : errsOk (parseSetGrid line st n) := by
  unfold parseSetGrid
  split
  · exact errsOk_addCommand h
  · exact errsOk_addError h (by decide)

theorem errsOk_parseSetAxes (line : String) (st : ParserState) (n : Nat)
    (h : errsOk st) : errsOk (parseSetAxes line st n) := by
  unfold parseSetAxes
  split
  · exact errsOk_addCommand h
  · exact errsOk_addError h (by decide)

theorem errsOk_processLine (g : Env) (line : String) (n : Nat) (st : ParserState) (scope : Env)
    (h : errsOk st) : errsOk (processLine g line n st scope) := by
  unfold processLine
  dsimp only
  split
  · exact errsOk_parseFunctionDefinition _ _ _ h
  · split
    · exact errsOk_parsePlot3D _ _ _ h
    · split
      · exact errsOk_parseCircle3D _ _ _ h
      · split
        · exact errsOk_parseText _ _ _ _ _ h
        · split
          · split
            · exact errsOk_parsePlotPoint3D _ _ _ _ _ h
            · exact h
          · split
            · split
              · split
                · exact h
                · next m hm => exact errsOk_addError h (securelyEvaluateIn_error_ne _ _ _ _ _ hm)
              · exact h
            · exact h

theorem errsOk_runBody (g : Env) (bodyLines : List Line) (scope : Env) :
    ∀ (st : ParserState), errsOk st → errsOk (runBody g bodyLines scope st) := by
  induction bodyLines with
  | nil => exact fun st h => h
  | cons p rest ih =>
    intro st h
    simp only [runBody, List.foldl_cons] at *
    apply ih
    split
    · exact errsOk_processLine _ _ _ _ _ h
    · exact h

theorem errsOk_runLoop (g : Env) (bl : List Line) (loop : ForLoop) (fl : Nat) :
    ∀ (fuel : Nat) (val : Option ℚ) (st : ParserState),
      errsOk st → errsOk (runLoop g bl loop fl fuel val st) := by
  intro fuel
  induction fuel with
  | zero =>
    intro val st h
    rw [runLoop]
    split
    · exact errsOk_addError h (ne_sizeMsg_of_head _ 'F' rfl (by decide))
    · exact h
  | succ f ih =>
    intro val st h
    rw [runLoop]
    split
    · exact ih _ _ (errsOk_runBody _ _ _ _ h)
    · exact h

theorem errsOk_runFrom (g : Env) (lines : List Line) :
    ∀ (fuel : Nat), ∀ (i : Nat) (st : ParserState),
      errsOk st → errsOk (runFrom g lines fuel i st) := by
  intro fuel
  induction fuel with
  | zero => exact fun i st h => h
  | succ f ih =>
    intro i st h
    rw [runFrom]
    split
    · exact h
    · dsimp only
      split
      · exact ih _ _ h
      · split
        · split
          · exact ih _ _ (errsOk_addError h (by decide))
          · split
            · exact ih _ _ (errsOk_runLoop _ _ _ _ _ _ _ h)
            · exact ih _ _ (errsOk_addError h (ne_sizeMsg_of_head _ 'M' rfl (by decide)))
        · split
          · split
            · exact ih _ _ (errsOk_parseSetView _ _ _ h)
            · split
              · exact ih _ _ (errsOk_parseSetGrid _ _ _ h)
              · split
                · exact ih _ _ (errsOk_parseSetAxes _ _ _ h)
                · exact ih _ _ h
          · exact ih _ _ (errsOk_processLine _ _ _ _ _ h)

/-- C6: a script over the size cap aborts immediately with the single
SizeLimitExceeded error and no commands; at or under the cap that error
message can never appear among the recorded errors. -/
theorem c6_size_cap (g : Env) (script : String) :
    (script.length > MAX_SCRIPT_SIZE →
      parseG3D g script = ⟨[], some [⟨1, sizeMsg⟩]⟩) ∧
    (script.length ≤ MAX_SCRIPT_SIZE →
      ∀ l, (parseG3D g script).errors = some l → ∀ e ∈ l, e.message ≠ sizeMsg) := by
  constructor
  · intro h
    unfold parseG3D
    rw [if_pos h]
  · intro h l hl e he
    unfold parseG3D at hl
    rw [if_neg (by omega)] at hl
    have hok : errsOk (runScript g script) := errsOk_runFrom _ _ _ _ _ errsOk_init
    by_cases hz : (runScript g script).errors = []
    · simp only [hz, if_pos rfl] at hl
      cases hl
    · simp only [if_neg hz] at hl
      cases hl
      exact hok e he

/-- C6 witness: one character over the cap aborts with the single size
error; the empty script is under the cap and its errors never carry the
size message. -/
theorem c6_size_cap_witness :
    parseG3D [] (String.mk (List.replicate 50001 'a')) = ⟨[], some [⟨1, sizeMsg⟩]⟩ ∧
    (∀ l, (parseG3D [] "").errors = some l → ∀ e ∈ l, e.message ≠ sizeMsg) :=
  ⟨(c6_size_cap [] _).1 (by
      show (List.replicate 50001 'a').length > MAX_SCRIPT_SIZE
      rw [List.length_replicate]
      decide),
   (c6_size_cap [] "").2 (by decide)⟩

/-! ## The iteration cap -/

/-- The overflow example script of the specification. -/
def c5script : String :=
  "FOR T=0 TO 1 STEP 0.0001\nPLOT POINT3D T,0,0 COLOR 255,0,0 SIZE 1\nNEXT T"

/-- Its parsed loop header. -/
def c5loop : ForLoop := ⟨"T", some 0, some 1, some (mkRat 1 10000)⟩

/-- Its collected body lines. -/
def c5body : List Line := [("PLOT POINT3D T,0,0 COLOR 255,0,0 SIZE 1", 2)]

/-- Its numbered lines. -/
def c5lines : List Line :=
  [("FOR T=0 TO 1 STEP 0.0001", 1),
   ("PLOT POINT3D T,0,0 COLOR 255,0,0 SIZE 1", 2),
   ("NEXT T", 3)]

/-- The command one body pass emits at the loop value v. -/
def ppCmd (v : ℚ) : AnyCommand :=
  .plotPoint3D (.num (some v)) (.num (some 0)) (.num (some 0))
    (some 1) (some 0) (some 0) (some 1) 2

/-- The expected overflow message of the example. -/
def c5msg : String :=
  "FOR loop exceeded 10000 iterations. Current: T=1.0000, Range: 0 to 1, Step: 0.0001"

/-- One pass over the example body appends exactly the one point command;
the function table is the built-in one throughout, since the body touches
only the command list. -/
theorem c5_body_step (g : Env) (v : ℚ) (st : ParserState)
    (hf : st.functions = initialFunctions) :
    runBody g c5body [(c5loop.varName, Value.num (some v))] st =
      { st with commands := st.commands ++ [ppCmd v] } := by
  obtain ⟨fns, fb, errs, cmds⟩ := st
  simp only at hf
  subst hf
  rfl

/-- The commands the capped loop produces: one per pass, values advancing
by the step. -/
def cmdSeq (cmdOf : ℚ → AnyCommand) : ℚ → ℚ → Nat → List AnyCommand
  | _, _, 0 => []
  | v, s, f + 1 => cmdOf v :: cmdSeq cmdOf (v + s) s f

theorem cmdSeq_length (cmdOf : ℚ → AnyCommand) :
    ∀ (f : Nat) (v s : ℚ), (cmdSeq cmdOf v s f).length = f
  | 0, _, _ => rfl
  | f + 1, v, s => by
    simp only [cmdSeq, List.length_cons, cmdSeq_length cmdOf f]

theorem cmdSeq_all_pp : ∀ (f : Nat) (v s : ℚ),
    (cmdSeq ppCmd v s f).all AnyCommand.isPlotPoint3D = true
  | 0, _, _ => rfl
  | f + 1, v, s => by
    simp only [cmdSeq, List.all_cons, cmdSeq_all_pp f]
    rfl

/-- The capped loop in general: when the remaining iteration budget f still
leaves the guard true at its exhaustion (v plus f steps stays at or under
the end), the body runs exactly f times, every produced command is retained
in order, and exactly one overflow error is recorded at the final value. -/
theorem runLoop_cap (g : Env) (bl : List Line) (loop : ForLoop) (n : Nat)
    (cmdOf : ℚ → AnyCommand) (e s : ℚ)
    (hend : loop.endV = some e) (hstep : loop.step = some s) (hs : 0 ≤ s)
    (hbody : ∀ (v : ℚ) (st : ParserState), st.functions = initialFunctions →
      runBody g bl [(loop.varName, Value.num (some v))] st =
        { st with commands := st.commands ++ [cmdOf v] }) :
    ∀ (f : Nat) (v : ℚ) (st : ParserState), st.functions = initialFunctions →
      v + (f : ℚ) * s ≤ e →
      runLoop g bl loop n f (some v) st =
        { st with
          commands := st.commands ++ cmdSeq cmdOf v s f,
          errors := st.errors ++ [⟨n, overflowMsg loop (some (v + (f : ℚ) * s))⟩] } := by
  intro f
  induction f with
  | zero =>
    intro v st hfun hle
    have hle2 : v ≤ e := by
      push_cast at hle
      linarith
    have hcond : qle (some v) loop.endV = true := by
      rw [hend]
      simp only [qle, decide_eq_true_eq]
      exact hle2
    rw [runLoop, if_pos hcond]
    have h0 : v + ((0 : Nat) : ℚ) * s = v := by push_cast; ring
    rw [h0]
    simp only [cmdSeq, List.append_nil, addError]
  | succ f ih =>
    intro v st hfun hle
    have hnn : (0 : ℚ) ≤ ((f : ℚ) + 1) * s := by positivity
    have hle2 : v ≤ e := by
      push_cast at hle
      linarith
    have hcond : qle (some v) loop.endV = true := by
      rw [hend]
      simp only [qle, decide_eq_true_eq]
      exact hle2
    rw [runLoop, if_pos hcond, hstep]
    simp only [qplus, qAdd_eq]
    rw [hbody v st hfun]
    rw [ih (v + s) { st with commands := st.commands ++ [cmdOf v] } hfun
      (by push_cast at hle ⊢; linarith)]
    have hv2 : v + s + (f : ℚ) * s = v + ((f + 1 : Nat) : ℚ) * s := by push_cast; ring
    rw [hv2]
    simp only [cmdSeq, List.append_assoc, List.singleton_append]

/-- C5: the overflow example — ten thousand and one mathematical
iterations — executes the body exactly ten thousand times, keeps every
produced PlotPoint3D command, and records exactly one LoopOverflow error
naming the current value and the configured bounds. -/
theorem c5_loop_cap :
    (parseG3D [] c5script).commands.length = 10000 ∧
    (parseG3D [] c5script).commands.all AnyCommand.isPlotPoint3D = true ∧
    (parseG3D [] c5script).errors = some [⟨1, c5msg⟩] := by
  have hE : runLoop [] c5body c5loop 1 MAX_LOOP_ITERATIONS (some 0) initState =
      { initState with
        commands := initState.commands ++ cmdSeq ppCmd 0 (mkRat 1 10000) 10000,
        errors := initState.errors ++
          [⟨1, overflowMsg c5loop (some (0 + ((10000 : Nat) : ℚ) * mkRat 1 10000))⟩] } :=
    runLoop_cap [] c5body c5loop 1 ppCmd 1 (mkRat 1 10000) rfl rfl
      (by rw [Rat.mkRat_eq_div]; norm_num)
      (fun v st hf => c5_body_step [] v st hf)
      10000 0 initState rfl
      (by rw [Rat.mkRat_eq_div]; push_cast; norm_num)
  have hmsg : overflowMsg c5loop (some (0 + ((10000 : Nat) : ℚ) * mkRat 1 10000)) = c5msg := by
    have hv : (0 : ℚ) + ((10000 : Nat) : ℚ) * mkRat 1 10000 = 1 := by
      rw [Rat.mkRat_eq_div]
      push_cast
      norm_num
    rw [hv]
    decide
  have hB : runScript [] c5script = runFrom [] c5lines c5lines.length 0 initState := by
    unfold runScript
    simp only [show numberLines (splitOnCh '\n' c5script) = c5lines from by decide]
  have hC : runFrom [] c5lines c5lines.length 0 initState =
      runFrom [] c5lines 2 3 (runLoop [] c5body c5loop 1 MAX_LOOP_ITERATIONS (some 0) initState) := by
    rw [show c5lines.length = 2 + 1 from rfl, runFrom]
    simp only [show c5lines.get? 0 = some ("FOR T=0 TO 1 STEP 0.0001", 1) from rfl]
    rw [if_neg (by decide)]
    rw [show strUpper (firstWord (normalizeLine "FOR T=0 TO 1 STEP 0.0001")) = "FOR" from by decide,
      if_pos rfl]
    simp only [show parseForMatch (normalizeLine "FOR T=0 TO 1 STEP 0.0001") = some c5loop
      from by decide]
    simp only [show findNextF (c5lines.length + 1) c5lines (0 + 1) c5loop.varName [] =
      some (2, c5body) from by decide]
    rfl
  have hD : ∀ st : ParserState, runFrom [] c5lines 2 3 st = st := by
    intro st
    rw [show (2 : Nat) = 1 + 1 from rfl, runFrom]
    simp only [show c5lines.get? 3 = none from rfl]
  have hscene : parseG3D [] c5script =
      ⟨(runScript [] c5script).commands,
        if (runScript [] c5script).errors = [] then none
        else some (runScript [] c5script).errors⟩ := by
    unfold parseG3D
    rw [if_neg (by decide)]
  have hstate : runScript [] c5script =
      { initState with
        commands := initState.commands ++ cmdSeq ppCmd 0 (mkRat 1 10000) 10000,
        errors := initState.errors ++ [⟨1, c5msg⟩] } := by
    rw [hB, hC, hD, hE, hmsg]
  rw [hscene, hstate]
  refine ⟨?_, ?_, ?_⟩
  · simp only [show initState.commands = [] from rfl, List.nil_append]
    exact cmdSeq_length ppCmd 10000 0 (mkRat 1 10000)
  · simp only [show initState.commands = [] from rfl, List.nil_append]
    exact cmdSeq_all_pp 10000 0 (mkRat 1 10000)
  · simp only [show initState.errors = [] from rfl, List.nil_append]
    rw [if_neg (by simp)]

end G3D
